import Mathlib

/-!
Verification development for the Procesare_Facturi P&L reconciliation engine.

The JavaScript (Google Apps Script) sources are shallowly embedded:
spreadsheet cells become an explicit `CellValue` type, sheets become
association lists from addresses to cell values, the LLM match oracle
becomes an explicit decision-valued parameter, and Apps Script exceptions
become `Except Unit` results.  Amounts and confidences are modelled as
exact rationals.
-/

/-- A spreadsheet cell value as seen by the JS engine: a number, a string,
or an empty cell (Apps Script `getValue()` yields `''` for empty cells,
which we fold into `empty`/`str ""` truthiness below). -/
inductive CellValue where
  | num (q : ℚ)
  | str (s : String)
  | empty
deriving DecidableEq, Repr

/-- JS truthiness of a cell value: `0`, `''` and empty are falsy. -/
def CellValue.truthy : CellValue → Bool
  | .num q => q != 0
  | .str s => s != ""
  | .empty => false

/-- Embeds the JS idiom `getValue() || 0` from the aggregation paths
(`src/unnamed/part_005` line 173, `src/unnamed/part_004` line 108):
a falsy cell defaults to the number 0, any truthy value passes through. -/
def jsOrZero (v : CellValue) : CellValue :=
  if v.truthy then v else .num 0

/-- Stand-in for JS number-to-string coercion used by `+` on a string
operand; digits are rendered via `toString` on the rational. -/
def ratRepr (q : ℚ) : String := toString q

/-- JS `+` with a numeric right operand: numeric cells add, string cells
concatenate (JS coerces the number to a string). -/
def jsAdd : CellValue → ℚ → CellValue
  | .num a, b => .num (a + b)
  | .str s, b => .str (s ++ ratRepr b)
  | .empty, b => .str (ratRepr b)

/-- Embeds the aggregate write of both engine variants:
`const currentValue = targetCell.getValue() || 0;
 const newValue = currentValue + entry.amount;`
(`src/unnamed/part_005` lines 173-174, `src/unnamed/part_004` lines 108-109). -/
def aggregateWrite (cell : CellValue) (amount : ℚ) : CellValue :=
  jsAdd (jsOrZero cell) amount

/-- A sheet region modelled as an association list from cell addresses to
values; addresses absent from the list read as empty cells. -/
def getCell {α : Type} [DecidableEq α] : List (α × CellValue) → α → CellValue
  | [], _ => .empty
  | (k', v) :: rest, k => if k' = k then v else getCell rest k

/-- Writing one cell (`setValue`) in the association-list sheet model. -/
def setCell {α : Type} [DecidableEq α] :
    List (α × CellValue) → α → CellValue → List (α × CellValue)
  | [], k, v => [(k, v)]
  | (k', v') :: rest, k, v =>
      if k' = k then (k, v) :: rest else (k', v') :: setCell rest k v

/-- The read-modify-write performed on an aggregate target row: read the
month cell, apply `aggregateWrite`, write the result back. -/
def writeAgg (m : List (Nat × CellValue)) (row : Nat) (amount : ℚ) :
    List (Nat × CellValue) :=
  setCell m row (aggregateWrite (getCell m row) amount)

theorem getCell_setCell {α : Type} [DecidableEq α]
    (m : List (α × CellValue)) (k : α) (v : CellValue) :
    getCell (setCell m k v) k = v := by
  induction m with
  | nil => simp [getCell, setCell]
  | cons hd tl ih =>
    obtain ⟨k', v'⟩ := hd
    by_cases h : k' = k
    · simp [getCell, setCell, h]
    · simp [getCell, setCell, h, ih]

theorem getCell_setCell_ne {α : Type} [DecidableEq α]
    (m : List (α × CellValue)) (k k' : α) (v : CellValue) (h : k' ≠ k) :
    getCell (setCell m k v) k' = getCell m k' := by
  induction m with
  | nil => simp [getCell, setCell, Ne.symm h]
  | cons hd tl ih =>
    obtain ⟨k0, v0⟩ := hd
    by_cases h0 : k0 = k
    · subst h0
      simp [getCell, setCell, Ne.symm h]
    · simp only [setCell, if_neg h0, getCell]
      by_cases h1 : k0 = k'
      · simp [h1]
      · simp [h1, ih]

theorem setCell_setCell {α : Type} [DecidableEq α]
    (m : List (α × CellValue)) (k : α) (v w : CellValue) :
    setCell (setCell m k v) k w = setCell m k w := by
  induction m with
  | nil => simp [setCell]
  | cons hd tl ih =>
    obtain ⟨k', v'⟩ := hd
    by_cases h : k' = k
    · simp [setCell, h]
    · simp [setCell, h, ih]

/-- Embeds JS `String.prototype.includes('!')` used by the skip guard
(`src/PLReconciliation.js` line 748, `src/unnamed/part_005` line 232). -/
def hasBang : List Char → Bool
  | [] => false
  | c :: rest => if c = '!' then true else hasBang rest

/-- String-level wrapper for `hasBang`. -/
def containsBang (s : String) : Bool := hasBang s.data

/-- Embeds `const [sheetName, cellRef] = matchResult.reference.split('!')`
(`src/unnamed/part_005` line 150): `none` models the JS crash path where
the string has no `'!'` so `cellRef` is `undefined` and the subsequent
`cellRef.match` throws.  On success it yields the text before the first
`'!'` and the text between the first and second `'!'`. -/
def breakAtBang : List Char → Option (List Char × List Char)
  | [] => none
  | c :: rest =>
      if c = '!' then some ([], rest.takeWhile (fun d => d ≠ '!'))
      else
        match breakAtBang rest with
        | none => none
        | some (pre, post) => some (c :: pre, post)

/-- First maximal run of decimal digits, embedding `cellRef.match(/\d+/)`
(`src/unnamed/part_005` line 154); an empty result models the JS crash
where `match` returns `null` and `null[0]` throws. -/
def firstDigitRun : List Char → List Char
  | [] => []
  | c :: rest =>
      if c.isDigit then c :: rest.takeWhile Char.isDigit
      else firstDigitRun rest

/-- Embeds `parseInt` on a digit run. -/
def digitsToNat (cs : List Char) : Nat :=
  cs.foldl (fun acc c => acc * 10 + (c.toNat - 48)) 0

/-- Embeds JS `String.prototype.trim` used when filtering blank candidate
names (`src/unnamed/part_005` lines 128 and 135). -/
def jsTrim (s : String) : String :=
  String.mk (((s.data.dropWhile Char.isWhitespace).reverse.dropWhile
    Char.isWhitespace).reverse)

theorem hasBang_of_breakAtBang (cs : List Char) (p : List Char × List Char)
    (h : breakAtBang cs = some p) : hasBang cs = true := by
  induction cs generalizing p with
  | nil => simp [breakAtBang] at h
  | cons c rest ih =>
    by_cases hc : c = '!'
    · simp [hasBang, hc]
    · simp only [breakAtBang, if_neg hc] at h
      simp only [hasBang, if_neg hc]
      cases hrec : breakAtBang rest with
      | none => rw [hrec] at h; exact absurd h (by simp)
      | some q => exact ih q hrec

/-- Oracle decision as parsed from the LLM JSON response.  Fields are
`Option`-valued because `JSON.parse` imposes no schema: a missing field is
JS `undefined` (`none`). -/
structure MatchResult where
  matched : Option Bool
  lineNumber : Option Nat
  reference : Option String
  confidence : Option ℚ
deriving DecidableEq, Repr

/-- The degraded decision returned by `matchClient` when both oracle call
attempts fail (`src/ClaudeService.js` lines 53-57). -/
def degradedDecision : MatchResult :=
  { matched := some false, lineNumber := none, reference := none,
    confidence := some 0 }

/-- JS truthiness of the `matched` field (`undefined` is falsy). -/
def jsTruthy : Option Bool → Bool
  | some b => b
  | none => false

/-- JS `confidence > threshold`: comparison with `undefined` is a NaN
comparison and yields `false`. -/
def jsGtOpt (confidence : Option ℚ) (threshold : ℚ) : Bool :=
  match confidence with
  | some c => decide (threshold < c)
  | none => false

/-- The acceptance test shared by every engine variant:
`match.matched && match.confidence > threshold`
(`src/unnamed/part_004` line 107 with threshold 0.8,
`src/PLReconciliation.js` line 863 and `src/unnamed/part_005` line 148
with threshold 0.5). -/
def acceptMatch (d : MatchResult) (threshold : ℚ) : Bool :=
  jsTruthy d.matched && jsGtOpt d.confidence threshold

/-- A match candidate with its human-auditable cell reference, embedding
the objects built in `src/unnamed/part_005` lines 123-135 and
`src/PLReconciliation.js` lines 838-843 (`text` there is `name` here). -/
structure Candidate where
  name : String
  reference : String
deriving DecidableEq, Repr

/-- Embeds the candidate builder of `src/unnamed/part_005` lines 123-135:
`data.slice(1).map((row, index) => (name, sheetName!col(index+2))).filter(
 match => match.name.trim() !== '')`.
`names` is the match-column projection of `data.slice(1)`, so list index
`i` corresponds to sheet row `i + 2`. -/
def buildMatches (sheetName colLetter : String) (names : List String) :
    List Candidate :=
  (names.enum.map (fun p =>
      { name := p.2,
        reference := sheetName ++ "!" ++ colLetter ++ toString (p.1 + 2) :
        Candidate })).filter (fun m => jsTrim m.name ≠ "")

/-- Embeds the unfiltered candidate builder of
`src/PLReconciliation.js` lines 838-843 (this variant does not filter
blank names). -/
def buildSheetCandidates (sheetName colLetter : String)
    (names : List String) : List Candidate :=
  names.enum.map (fun p =>
    { name := p.2,
      reference := sheetName ++ "!" ++ colLetter ++ toString (p.1 + 2) })

/-- A P&L client row as passed to `matchClient`
(`src/unnamed/part_004` lines 38-44): `line` is the 1-based sheet row. -/
structure PLClient where
  name : String
  line : Nat
deriving DecidableEq, Repr

/-- Embeds the P&L client list builder of `src/unnamed/part_004`
lines 38-44: map column D to (name, index+1), then
`.filter(client => client.name)` (JS truthiness, so only `''` is
dropped, with no trimming in this variant). -/
def buildPlClients (names : List String) : List PLClient :=
  (names.enum.map (fun p => { name := p.2, line := p.1 + 1 : PLClient })).filter
    (fun c => c.name ≠ "")

/-- Embeds the `matchClient` input validation of `src/ClaudeService.js`
lines 21-24: `plClients.some(c => !c.name || !c.line)` with JS falsiness
(`''` for the name, `0` for the line).  The input is typed as a list, so
the `!Array.isArray` disjunct cannot fire in the model. -/
def validPlClients (cs : List PLClient) : Bool :=
  !(cs.any (fun c => c.name = "" || c.line = 0))

/-- One `callClaude` attempt combined with `JSON.parse` of its text:
`Except.error` covers both a transport failure and an unparseable
response, the two cases of the `catch` in `src/ClaudeService.js`
lines 43-59. -/
def matchClientCore (attempt1 attempt2 : Except Unit MatchResult) :
    MatchResult :=
  match attempt1 with
  | .ok d => d
  | .error _ =>
      match attempt2 with
      | .ok d => d
      | .error _ => degradedDecision

/-- Number of oracle calls `matchClient` makes, as a function of the first
attempt's outcome: one on success, two (the original and exactly one
retry) on any failure. -/
def matchClientCalls (attempt1 : Except Unit MatchResult) : Nat :=
  match attempt1 with
  | .ok _ => 1
  | .error _ => 2

/-- Milliseconds slept before the retry (`Utilities.sleep(1000)`,
`src/ClaudeService.js` line 49): the fixed delay is paid exactly when the
first attempt failed. -/
def retrySleepMs (attempt1 : Except Unit MatchResult) : Nat :=
  match attempt1 with
  | .ok _ => 0
  | .error _ => 1000

/-- Embeds `matchClient` of `src/ClaudeService.js` lines 16-60: validate
the candidate list (throwing `Invalid P&L clients data structure` on a
malformed record), then run the call with one retry and degrade to
`degradedDecision` if both attempts fail.  The API-key presence check is
environmental and assumed to pass. -/
def matchClient (attempt1 attempt2 : Except Unit MatchResult)
    (_invoiceClient : String) (plClients : List PLClient) :
    Except Unit MatchResult :=
  if validPlClients plClients then .ok (matchClientCore attempt1 attempt2)
  else .error ()

/-- A raw oracle HTTP response body: either not syntactically valid JSON,
or a JSON object carrying whatever decision fields were present. -/
inductive RawResponse where
  | invalidJson
  | jsonObject (fields : MatchResult)
deriving DecidableEq, Repr

/-- Embeds `JSON.parse(response)` (`src/ClaudeService.js` lines 45 and 51):
syntactic JSON validity is the only check performed; the parsed fields are
returned untouched. -/
def parseResponse : RawResponse → Except Unit MatchResult
  | .invalidJson => .error ()
  | .jsonObject f => .ok f

/-- `matchClient`'s decision as a function of the two raw responses. -/
def matchClientFromRaw (r1 r2 : RawResponse) : MatchResult :=
  matchClientCore (parseResponse r1) (parseResponse r2)

/-- Modelled from the spec: the MatchDecision schema check the spec
describes (response must carry `matched` and `confidence`, with
`confidence` inside `[0,1]`); stated here only to compare the code's
behaviour against it. -/
def specSchemaOk (m : MatchResult) : Bool :=
  m.matched.isSome &&
    (match m.confidence with
     | some c => decide (0 ≤ c ∧ c ≤ 1)
     | none => false)

/-- Outcome of one sheet check / entry processing step, embedding the
`isMatch` objects returned in `src/PLReconciliation.js` lines 878-893 and
`src/unnamed/part_005` lines 177-186 (logging-only fields such as
`explanation`, `promptUsed` and `rawResponse` are dropped). -/
structure MatchOutcome where
  isMatch : Bool
  reference : Option String
  confidence : Option ℚ
deriving DecidableEq, Repr

/-- The rejection outcome `return (isMatch false)`. -/
def noMatchOutcome : MatchOutcome :=
  { isMatch := false, reference := none, confidence := none }

/-- Embeds `checkSheetForMatch` of `src/PLReconciliation.js`
lines 812-904: the sheet data and header validation are summarised by the
prebuilt candidate list, and the oracle decision `d` stands for
`claude.matchClient(entry.supplier, potentialMatches)`.  On acceptance the
code indexes `potentialMatches[matchResult.lineNumber - 2]`; a missing or
too-small `lineNumber`, or an out-of-range index, makes the JS throw
(`undefined.text`), modelled by `Except.error`. -/
def checkSheetForMatch (d : MatchResult) (potentialMatches : List Candidate) :
    Except Unit MatchOutcome :=
  if acceptMatch d (1/2) then
    match d.lineNumber with
    | none => .error ()
    | some n =>
        if n < 2 then .error ()
        else
          match potentialMatches.get? (n - 2) with
          | none => .error ()
          | some matchedEntry =>
              .ok { isMatch := true, reference := some matchedEntry.reference,
                    confidence := d.confidence }
  else .ok noMatchOutcome

/-- Modelled from the spec: `updateAmount` is called by
`matchAndUpdateEntry` in `src/PLReconciliation.js` lines 666 and 681 but
is defined nowhere in the repository; per spec section 4.3 it reads the
aggregate target at the match reference (missing/falsy as 0 via the same
`getValue() || 0` idiom) and writes back `old + amount`. -/
def updateAmount (store : List (String × CellValue)) (reference : String)
    (amount : ℚ) : List (String × CellValue) :=
  setCell store reference (aggregateWrite (getCell store reference) amount)

/-- Embeds `matchAndUpdateEntry` of `src/PLReconciliation.js`
lines 647-703: check the Expenses sheet first and, only when that reports
no match, check the Staffing sheet; an accepted match aggregates the
entry amount at the match reference and returns. -/
def matchAndUpdateEntryTwoSheet (dExp dStaff : MatchResult)
    (expCands staffCands : List Candidate)
    (store : List (String × CellValue)) (amount : ℚ) :
    Except Unit (MatchOutcome × List (String × CellValue)) :=
  match checkSheetForMatch dExp expCands with
  | .error e => .error e
  | .ok expensesMatch =>
      if expensesMatch.isMatch then
        .ok (expensesMatch,
          updateAmount store (expensesMatch.reference.getD "") amount)
      else
        match checkSheetForMatch dStaff staffCands with
        | .error e => .error e
        | .ok staffingMatch =>
            if staffingMatch.isMatch then
              .ok (staffingMatch,
                updateAmount store (staffingMatch.reference.getD "") amount)
            else .ok (noMatchOutcome, store)

/-- The two aggregate target regions of the part_005 service: the cells of
the month column in the Expenses and Staffing sheets, keyed by 1-based
sheet row.  The candidate name columns (C and D) are carried separately as
name lists because `matchAndUpdateEntry` only ever writes the month
column, never the name columns. -/
structure EngineState where
  expensesAgg : List (Nat × CellValue)
  staffingAgg : List (Nat × CellValue)
deriving DecidableEq, Repr

/-- The combined candidate list sent to the oracle by
`src/unnamed/part_005` lines 123-138. -/
def allCands (expNames staffNames : List String) : List Candidate :=
  buildMatches "Expenses" "C" expNames ++ buildMatches "Staffing" "D" staffNames

/-- Embeds `matchAndUpdateEntry` of `src/unnamed/part_005` lines 116-190.
The oracle is a deterministic function of the supplier name and the
candidate list.  On acceptance the code splits the reference at `'!'`,
parses the row number, and adds the amount into that row of the month
column of the named sheet (any sheet name other than `Expenses` selects
Staffing, as in the source ternary).  `Except.error` models the JS throw
paths: a missing reference, a reference without `'!'`, a cell part
without digits, or row 0 (an invalid `getRange` row).  The month-column
lookup of lines 157-169 is summarised by the per-row aggregate store,
which fixes the month column for the run. -/
def matchAndUpdateEntryP5 (oracle : String → List Candidate → MatchResult)
    (expNames staffNames : List String) (st : EngineState)
    (supplier : String) (amount : ℚ) :
    Except Unit (MatchOutcome × EngineState) :=
  let matchResult := oracle supplier (allCands expNames staffNames)
  if acceptMatch matchResult (1/2) then
    match matchResult.reference with
    | none => .error ()
    | some ref =>
        match breakAtBang ref.data with
        | none => .error ()
        | some (sheetChars, cellChars) =>
            match firstDigitRun cellChars with
            | [] => .error ()
            | ds =>
                let rowNumber := digitsToNat ds
                if rowNumber = 0 then .error ()
                else
                  let out : MatchOutcome :=
                    { isMatch := true, reference := some ref,
                      confidence := matchResult.confidence }
                  if String.mk sheetChars = "Expenses" then
                    .ok (out, { st with
                      expensesAgg := writeAgg st.expensesAgg rowNumber amount })
                  else
                    .ok (out, { st with
                      staffingAgg := writeAgg st.staffingAgg rowNumber amount })
  else .ok (noMatchOutcome, st)

/-- One source sheet row as read by `processReconciliation`
(`src/unnamed/part_005` lines 222-226): column B supplier, column O
amount, column P current match status. -/
structure SourceRow where
  supplier : String
  amount : ℚ
  isMatched : String
deriving DecidableEq, Repr

/-- Embeds the skip guard of `src/unnamed/part_005` lines 229-234 and
`src/PLReconciliation.js` lines 745-748: skip when the status cell is
truthy, not `'No match'`, and contains `'!'` (a stored cell reference).
The separate `!== ''` test of the source is absorbed by string truthiness. -/
def shouldSkip (s : String) : Bool :=
  (s ≠ "" : Bool) && (s ≠ "No match" : Bool) && containsBang s

/-- Embeds `updateMatchedStatus` (`src/unnamed/part_005` lines 95-110):
the column P cell receives the match reference on success and the literal
`'No match'` otherwise (cell colors are not modelled). -/
def updateMatchedStatus (res : MatchOutcome) : String :=
  if res.isMatch then res.reference.getD "" else "No match"

/-- One iteration of the `processReconciliation` row loop
(`src/unnamed/part_005` lines 221-242): skip or match-and-update, then
write the new status into column P of the row. -/
def processRowP5 (oracle : String → List Candidate → MatchResult)
    (expNames staffNames : List String) (st : EngineState) (r : SourceRow) :
    Except Unit (EngineState × SourceRow) :=
  if shouldSkip r.isMatched then .ok (st, r)
  else
    match matchAndUpdateEntryP5 oracle expNames staffNames st
        r.supplier r.amount with
    | .error e => .error e
    | .ok (res, st') =>
        .ok (st', { r with isMatched := updateMatchedStatus res })

/-- The `processReconciliation` row loop over a list of source rows,
returning the final aggregate state and the updated rows (the column P
cells as left on the sheet).  An error aborts the remainder, as the JS
exception does. -/
def processRowsP5 (oracle : String → List Candidate → MatchResult)
    (expNames staffNames : List String) :
    EngineState → List SourceRow → Except Unit (EngineState × List SourceRow)
  | st, [] => .ok (st, [])
  | st, r :: rest =>
      match processRowP5 oracle expNames staffNames st r with
      | .error e => .error e
      | .ok (st1, r') =>
          match processRowsP5 oracle expNames staffNames st1 rest with
          | .error e => .error e
          | .ok (st2, rest') => .ok (st2, r' :: rest')

/-- Embeds `processReconciliation(testMode)` (`src/unnamed/part_005`
lines 209-254): test mode caps processing at the first 10 data rows
(`maxRows = min(11, data.length)` over header-inclusive data). -/
def processReconciliationP5 (oracle : String → List Candidate → MatchResult)
    (expNames staffNames : List String) (st : EngineState)
    (rows : List SourceRow) (testMode : Bool) :
    Except Unit (EngineState × List SourceRow) :=
  processRowsP5 oracle expNames staffNames st
    (if testMode then rows.take 10 else rows)

/-- One invoice row of the source sheet as read by `startPLReconciliation`
(`src/unnamed/part_004` lines 82-83): the client name cell and the
`Suma in EUR` cell, modelled at their primitive values (the guard's JS
falsiness becomes `'' `/`0`). -/
structure InvoiceRow where
  client : String
  value : ℚ
deriving DecidableEq, Repr

/-- One structured log entry pushed on an accepted match
(`src/unnamed/part_004` lines 114-126; timestamp, request id, month and
latency are ambient run context and not modelled). -/
structure LogRow where
  invoiceClient : String
  plClient : String
  value : ℚ
  oldValue : CellValue
  newValue : CellValue
  confidence : Option ℚ
deriving DecidableEq, Repr

/-- Mutable state of the `startPLReconciliation` row loop: the revenues
month column (keyed by 1-based sheet row), the in-memory `log` array, the
`updatedCount`, and whether an exception aborted the loop. -/
structure PLLoopState where
  revenues : List (Nat × CellValue)
  logAcc : List LogRow
  updatedCount : Nat
  aborted : Bool
deriving DecidableEq, Repr

/-- Embeds the row loop of `startPLReconciliation`
(`src/unnamed/part_004` lines 81-130).  `attempts` gives, per client name,
the outcomes of the two `callClaude` attempts consumed by `matchClient`.
Rows with a falsy client or value are skipped (`continue`).  An accepted
match reads and rewrites the revenues cell at the oracle's line number
(`setValue` happens before the `log.push`, so an exception in the
`plClients[lineNumber - 1].name` lookup still leaves the write in place);
`aborted` records the JS exception reaching the outer catch, which ends
the loop but keeps all writes already made. -/
def plLoopGo (attempts : String → Except Unit MatchResult × Except Unit MatchResult)
    (plClients : List PLClient) (s : PLLoopState) :
    List InvoiceRow → PLLoopState
  | [] => s
  | r :: rest =>
      if r.client = "" ∨ r.value = 0 then plLoopGo attempts plClients s rest
      else
        match matchClient (attempts r.client).1 (attempts r.client).2
            r.client plClients with
        | .error _ => { s with aborted := true }
        | .ok d =>
            if acceptMatch d (4/5) then
              match d.lineNumber with
              | none => { s with aborted := true }
              | some n =>
                  if n = 0 then { s with aborted := true }
                  else
                    let oldValue := jsOrZero (getCell s.revenues n)
                    let newValue := aggregateWrite (getCell s.revenues n) r.value
                    let rev' := setCell s.revenues n newValue
                    match plClients.get? (n - 1) with
                    | none => { s with revenues := rev', aborted := true }
                    | some c =>
                        plLoopGo attempts plClients
                          { revenues := rev',
                            logAcc := s.logAcc ++
                              [{ invoiceClient := r.client, plClient := c.name,
                                 value := r.value, oldValue := oldValue,
                                 newValue := newValue,
                                 confidence := d.confidence }],
                            updatedCount := s.updatedCount + 1,
                            aborted := false } rest
            else plLoopGo attempts plClients s rest

/-- Result of a `startPLReconciliation` run: final revenues column, the
log rows actually appended to the `Reconciliation Log` sheet (the
`log.forEach(appendRow)` of lines 133-135 runs only when the loop
completes without an exception), the updated count, and the abort flag. -/
structure PLRunResult where
  revenues : List (Nat × CellValue)
  logRows : List LogRow
  updatedCount : Nat
  aborted : Bool
deriving DecidableEq, Repr

/-- Embeds `startPLReconciliation` of `src/unnamed/part_004` restricted to
its row loop and log flush (sheet lookups and UI alerts are environment). -/
def startPLLoop (attempts : String → Except Unit MatchResult × Except Unit MatchResult)
    (plClients : List PLClient) (revenues : List (Nat × CellValue))
    (rows : List InvoiceRow) : PLRunResult :=
  let s := plLoopGo attempts plClients
    { revenues := revenues, logAcc := [], updatedCount := 0, aborted := false }
    rows
  { revenues := s.revenues,
    logRows := if s.aborted then [] else s.logAcc,
    updatedCount := s.updatedCount,
    aborted := s.aborted }

theorem aggregateWrite_num (q a : ℚ) :
    aggregateWrite (CellValue.num q) a = CellValue.num (q + a) := by
  by_cases h : q = 0
  · subst h
    simp [aggregateWrite, jsOrZero, jsAdd, CellValue.truthy]
  · simp [aggregateWrite, jsOrZero, jsAdd, CellValue.truthy, h]

/-- C1: for every accepted match the engine's aggregate write is a
read-modify-write, `new = old + contribution`, never an overwrite, and two
accepted matches contributing `a` and `b` to the same target reference
leave it at exactly `old + a + b` in either processing order. -/
theorem spec_c1 (m : List (Nat × CellValue)) (k : Nat) (old a b : ℚ)
    (h : getCell m k = CellValue.num old) :
    getCell (writeAgg m k a) k = CellValue.num (old + a)
    ∧ writeAgg (writeAgg m k a) k b = writeAgg (writeAgg m k b) k a
    ∧ getCell (writeAgg (writeAgg m k a) k b) k = CellValue.num (old + a + b) := by
  have h1 : ∀ c : ℚ, getCell (writeAgg m k c) k = CellValue.num (old + c) := by
    intro c
    rw [writeAgg, getCell_setCell, h, aggregateWrite_num]
  have h2 : ∀ c d : ℚ, writeAgg (writeAgg m k c) k d
      = setCell m k (CellValue.num (old + c + d)) := by
    intro c d
    rw [writeAgg, h1 c, aggregateWrite_num, writeAgg, h, aggregateWrite_num,
      setCell_setCell]
  refine ⟨h1 a, ?_, ?_⟩
  · rw [h2 a b, h2 b a, add_right_comm]
  · rw [h2 a b, getCell_setCell]

/-- C1 witness at a concrete store: row 4 holds 10, contributions 3 then 5. -/
theorem spec_c1_witness :
    getCell (writeAgg (writeAgg [(4, CellValue.num 10)] 4 3) 4 5) 4
      = CellValue.num (10 + 3 + 5) :=
  (spec_c1 [(4, CellValue.num 10)] 4 10 3 5 (by with_unfolding_all rfl)).2.2

/-- C2: a decision is accepted exactly when its `matched` flag is `true`
and its confidence is strictly above the threshold; any decision whose
confidence is at or below the (0.5) threshold yields a NoMatch outcome
from `checkSheetForMatch`, regardless of `matched`. -/
theorem spec_c2 (d : MatchResult) (t : ℚ) :
    (acceptMatch d t = true ↔
      (d.matched = some true ∧ ∃ c, d.confidence = some c ∧ t < c))
    ∧ (∀ c, d.confidence = some c → c ≤ 1/2 →
        ∀ cands, checkSheetForMatch d cands = .ok noMatchOutcome) := by
  constructor
  · unfold acceptMatch jsTruthy jsGtOpt
    cases hm : d.matched with
    | none => simp
    | some bm =>
      cases hc : d.confidence with
      | none => simp
      | some c =>
        cases bm <;> simp
  · intro c hc hle cands
    have hacc : acceptMatch d (1/2) = false := by
      have hns : ((1:ℚ)/2 < c) = False := eq_false (not_lt.mpr hle)
      simp only [acceptMatch, jsGtOpt, hc, hns, decide_False, Bool.and_false]
    unfold checkSheetForMatch
    rw [hacc]
    simp

/-- Decision at the exact threshold, used by the C2 witness. -/
def halfConfidenceEx : MatchResult :=
  { matched := some true, lineNumber := some 2, reference := none,
    confidence := some (1/2) }

/-- C2 witness: a matched decision at confidence exactly 0.5 is rejected. -/
theorem spec_c2_witness :
    checkSheetForMatch halfConfidenceEx [] = .ok noMatchOutcome :=
  (spec_c2 halfConfidenceEx (1/2)).2 (1/2) rfl le_rfl []

/-- C6: for candidates `["Acme SRL", "", "Globex SA"]` the addressable
candidate list has exactly two entries; the second carries reference
`Expenses!C4`, whose row parse resolves to the sheet row holding
`"Globex SA"` and never to the blank row; the part_004 client list builder
likewise keeps two entries with their true sheet lines 1 and 3. -/
theorem spec_c6 :
    (buildMatches "Expenses" "C" ["Acme SRL", "", "Globex SA"]).length = 2
    ∧ buildMatches "Expenses" "C" ["Acme SRL", "", "Globex SA"]
        = [{ name := "Acme SRL", reference := "Expenses!C2" },
           { name := "Globex SA", reference := "Expenses!C4" }]
    ∧ (match breakAtBang ("Expenses!C4").data with
       | some p => digitsToNat (firstDigitRun p.2)
       | none => 0) = 4
    ∧ ["Acme SRL", "", "Globex SA"].get? (4 - 2) = some "Globex SA"
    ∧ buildPlClients ["Acme SRL", "", "Globex SA"]
        = [{ name := "Acme SRL", line := 1 }, { name := "Globex SA", line := 3 }] := by
  refine ⟨by decide, by decide, by decide, by decide, by decide⟩

/-- C7 counterexample: a non-numeric, non-empty aggregate cell (`"abc"`)
is not treated as zero — JS `+` concatenates, writing the string
`"abc5"` instead of the number 5. -/
theorem spec_c7_counterexample :
    aggregateWrite (CellValue.str "abc") 5 = CellValue.str "abc5"
    ∧ aggregateWrite (CellValue.str "abc") 5 ≠ CellValue.num 5 := by
  refine ⟨by with_unfolding_all rfl, by with_unfolding_all decide⟩

/-- C7 as amended: only falsy aggregate cell values (missing, `''`, `0`)
are treated as zero; numeric values are added exactly; a non-empty
non-numeric string is instead concatenated with the amount.  No case
throws: the write is total and the run continues. -/
theorem spec_c7 (a : ℚ) :
    aggregateWrite CellValue.empty a = CellValue.num a
    ∧ aggregateWrite (CellValue.str "") a = CellValue.num a
    ∧ aggregateWrite (CellValue.num 0) a = CellValue.num a
    ∧ (∀ q, aggregateWrite (CellValue.num q) a = CellValue.num (q + a))
    ∧ (∀ s, s ≠ "" →
        aggregateWrite (CellValue.str s) a = CellValue.str (s ++ ratRepr a)) := by
  refine ⟨?_, ?_, ?_, fun q => aggregateWrite_num q a, ?_⟩
  · simp [aggregateWrite, jsOrZero, jsAdd, CellValue.truthy]
  · simp [aggregateWrite, jsOrZero, jsAdd, CellValue.truthy]
  · rw [aggregateWrite_num, zero_add]
  · intro s hs
    simp [aggregateWrite, jsOrZero, jsAdd, CellValue.truthy, hs]

/-- C7 witness: a non-empty string cell concatenates. -/
theorem spec_c7_witness :
    aggregateWrite (CellValue.str "x") 3 = CellValue.str ("x" ++ ratRepr 3) :=
  (spec_c7 3).2.2.2.2 "x" (by decide)

/-- Decision violating the MatchDecision schema (no `matched` field,
confidence 1.5), used by the C9 counterexample. -/
def badDecisionEx : MatchResult :=
  { matched := none, lineNumber := some 3, reference := none,
    confidence := some (3/2) }

/-- C9 counterexample: a well-formed JSON response that lacks `matched`
and carries confidence 1.5 fails the spec's schema check, yet
`matchClient` returns it as the decision instead of rejecting it. -/
theorem spec_c9_counterexample :
    specSchemaOk badDecisionEx = false
    ∧ matchClientFromRaw (RawResponse.jsonObject badDecisionEx)
        RawResponse.invalidJson = badDecisionEx := by
  refine ⟨by with_unfolding_all decide, by with_unfolding_all rfl⟩

/-- C9 as amended: the only check applied to an oracle response is JSON
syntactic validity.  Any parseable response is returned verbatim as the
decision, whatever fields it carries; unparseable responses count as
failures, resolved by the retry and, on double failure, by the degraded
decision. -/
theorem spec_c9 (f : MatchResult) (r2 : RawResponse) :
    matchClientFromRaw (RawResponse.jsonObject f) r2 = f
    ∧ matchClientFromRaw RawResponse.invalidJson (RawResponse.jsonObject f) = f
    ∧ matchClientFromRaw RawResponse.invalidJson RawResponse.invalidJson
        = degradedDecision := ⟨rfl, rfl, rfl⟩

theorem plLoopGo_allfail
    (attempts : String → Except Unit MatchResult × Except Unit MatchResult)
    (plClients : List PLClient)
    (hA : ∀ q, attempts q = (.error (), .error ()))
    (hP : validPlClients plClients = true) :
    ∀ (rows : List InvoiceRow) (s : PLLoopState),
      plLoopGo attempts plClients s rows = s := by
  intro rows
  induction rows with
  | nil => intro s; rfl
  | cons r rest ih =>
    intro s
    simp only [plLoopGo, hA r.client]
    split
    · exact ih s
    · simp only [matchClient, hP, if_true, matchClientCore, acceptMatch,
        degradedDecision, jsTruthy, Bool.false_and, Bool.if_false_left]
      exact ih s

theorem plLoopGo_log_length
    (attempts : String → Except Unit MatchResult × Except Unit MatchResult)
    (plClients : List PLClient) :
    ∀ (rows : List InvoiceRow) (s : PLLoopState),
      (plLoopGo attempts plClients s rows).aborted = true
      ∨ (plLoopGo attempts plClients s rows).logAcc.length + s.updatedCount
          = (plLoopGo attempts plClients s rows).updatedCount + s.logAcc.length := by
  intro rows
  induction rows with
  | nil => intro s; right; simp only [plLoopGo]; omega
  | cons r rest ih =>
    intro s
    simp only [plLoopGo]
    split
    · exact ih s
    · split
      · left; rfl
      · split
        · split
          · left; rfl
          · split
            · left; rfl
            · split
              · left; rfl
              · rcases ih _ with hab | hlen
                · left; exact hab
                · right
                  simp only [List.length_append, List.length_cons,
                    List.length_nil] at hlen ⊢
                  omega
        · exact ih s

/-- C5 as amended: one audit row is appended per accepted match — when the
run completes, the number of appended log rows equals `updatedCount` —
while rejected (NoMatch) outcomes append nothing, and an aborted run
appends nothing at all. -/
theorem spec_c5
    (attempts : String → Except Unit MatchResult × Except Unit MatchResult)
    (plClients : List PLClient) (revenues : List (Nat × CellValue))
    (rows : List InvoiceRow) :
    (startPLLoop attempts plClients revenues rows).logRows.length
      = if (startPLLoop attempts plClients revenues rows).aborted = true then 0
        else (startPLLoop attempts plClients revenues rows).updatedCount := by
  simp only [startPLLoop]
  rcases plLoopGo_log_length attempts plClients rows
      ⟨revenues, [], 0, false⟩ with hab | hlen
  · simp [hab]
  · by_cases hab :
        (plLoopGo attempts plClients ⟨revenues, [], 0, false⟩ rows).aborted = true
    · simp [hab]
    · simp only [hab, if_false, List.length_nil] at hlen ⊢
      simp only [Bool.false_eq_true, if_false]
      omega

/-- Always-rejecting oracle attempts, used by the C5 counterexample. -/
def rejectAttemptsEx :
    String → Except Unit MatchResult × Except Unit MatchResult :=
  fun _ => (.ok degradedDecision, .ok degradedDecision)

/-- Candidate list with a single well-formed record. -/
def clientsEx : List PLClient := [{ name := "Acme SRL", line := 1 }]

/-- C5 counterexample: a run that processes one valid entry (name and
amount present, oracle consulted, outcome NoMatch) appends zero audit
records, not exactly one — the log is only written for accepted matches. -/
theorem spec_c5_counterexample :
    startPLLoop rejectAttemptsEx clientsEx [(1, CellValue.num 10)]
        [{ client := "ACME", value := 5 }]
      = { revenues := [(1, CellValue.num 10)], logRows := [],
          updatedCount := 0, aborted := false } := by
  with_unfolding_all rfl

/-- C3: `matchClient` performs exactly one retry (two calls) after a fixed
1000 ms delay on any first-attempt failure; a double failure is not
propagated but degraded to `(matched false, reference null, confidence 0)`,
so the whole run completes without throwing and with no aggregation, while
a failure followed by a valid accepted decision updates the aggregate and
logs the entry as matched. -/
theorem spec_c3 :
    (∀ d : MatchResult, matchClientCalls (.ok d) = 1)
    ∧ matchClientCalls (.error ()) = 2
    ∧ retrySleepMs (.error ()) = 1000
    ∧ matchClientCore (.error ()) (.error ()) = degradedDecision
    ∧ (∀ d : MatchResult, matchClientCore (.error ()) (.ok d) = d)
    ∧ (∀ (attempts : String → Except Unit MatchResult × Except Unit MatchResult)
        (plClients : List PLClient) (revenues : List (Nat × CellValue))
        (rows : List InvoiceRow),
        (∀ q, attempts q = (.error (), .error ())) →
        validPlClients plClients = true →
        startPLLoop attempts plClients revenues rows
          = { revenues := revenues, logRows := [], updatedCount := 0,
              aborted := false })
    ∧ (∀ (plClients : List PLClient) (revenues : List (Nat × CellValue))
        (q : String) (a : ℚ) (d : MatchResult) (n : Nat) (c : PLClient),
        q ≠ "" → a ≠ 0 → validPlClients plClients = true →
        acceptMatch d (4/5) = true → d.lineNumber = some n → n ≠ 0 →
        plClients.get? (n - 1) = some c →
        startPLLoop (fun _ => (.error (), .ok d)) plClients revenues
            [{ client := q, value := a }]
          = { revenues := setCell revenues n
                (aggregateWrite (getCell revenues n) a),
              logRows := [{ invoiceClient := q, plClient := c.name,
                            value := a,
                            oldValue := jsOrZero (getCell revenues n),
                            newValue := aggregateWrite (getCell revenues n) a,
                            confidence := d.confidence }],
              updatedCount := 1, aborted := false }) := by
  refine ⟨fun d => rfl, rfl, rfl, rfl, fun d => rfl, ?_, ?_⟩
  · intro attempts plClients revenues rows hA hP
    simp only [startPLLoop, plLoopGo_allfail attempts plClients hA hP rows]
    simp
  · intro plClients revenues q a d n c hq ha hP hacc hline hn hget
    simp only [startPLLoop, plLoopGo, hq, ha, or_self, if_false,
      matchClient, hP, if_true, matchClientCore, hacc, hline, hn,
      hget, aggregateWrite]
    simp

/-- Accepted decision pointing at line 1, used by the C3 witness. -/
def goodDecisionEx : MatchResult :=
  { matched := some true, lineNumber := some 1, reference := none,
    confidence := some (9/10) }

/-- C3 witness: first attempt fails, second returns an accepted decision;
the single entry ends matched, its amount aggregated into line 1 and one
log row produced — the run does not throw. -/
theorem spec_c3_witness :
    startPLLoop (fun _ => (.error (), .ok goodDecisionEx)) clientsEx
        [(1, CellValue.num 10)] [{ client := "ACME", value := 5 }]
      = { revenues := setCell [(1, CellValue.num 10)] 1
            (aggregateWrite (getCell [(1, CellValue.num 10)] 1) 5),
          logRows := [{ invoiceClient := "ACME", plClient := "Acme SRL",
                        value := 5,
                        oldValue := jsOrZero (getCell [(1, CellValue.num 10)] 1),
                        newValue := aggregateWrite
                          (getCell [(1, CellValue.num 10)] 1) 5,
                        confidence := some (9/10) }],
          updatedCount := 1, aborted := false } :=
  spec_c3.2.2.2.2.2.2 clientsEx [(1, CellValue.num 10)] "ACME" 5
    goodDecisionEx 1 { name := "Acme SRL", line := 1 } (by decide)
    (by norm_num) (by decide) (by with_unfolding_all decide) rfl
    (by decide) rfl

/-- C8 as amended: only a malformed candidate record — one whose `name` or
`line` is falsy — makes `matchClient` fail fast, which aborts the run
while preserving every aggregate write already committed; an empty
candidate set passes validation and does not fail fast, and source rows
lacking a name or amount are skipped, not errors. -/
theorem spec_c8 :
    (∀ (cs : List PLClient) (c : PLClient), c ∈ cs →
        (c.name = "" ∨ c.line = 0) → validPlClients cs = false)
    ∧ (∀ (a1 a2 : Except Unit MatchResult) (q : String) (cs : List PLClient),
        validPlClients cs = false → matchClient a1 a2 q cs = .error ())
    ∧ (∀ (attempts : String → Except Unit MatchResult × Except Unit MatchResult)
        (plClients : List PLClient) (s : PLLoopState) (r : InvoiceRow)
        (rest : List InvoiceRow),
        ¬(r.client = "" ∨ r.value = 0) →
        matchClient (attempts r.client).1 (attempts r.client).2
          r.client plClients = .error () →
        plLoopGo attempts plClients s (r :: rest) = { s with aborted := true })
    ∧ validPlClients [] = true
    ∧ (∀ (attempts : String → Except Unit MatchResult × Except Unit MatchResult)
        (plClients : List PLClient) (s : PLLoopState) (rest : List InvoiceRow)
        (a : ℚ) (q : String),
        plLoopGo attempts plClients s ({ client := "", value := a } :: rest)
          = plLoopGo attempts plClients s rest
        ∧ plLoopGo attempts plClients s ({ client := q, value := 0 } :: rest)
          = plLoopGo attempts plClients s rest) := by
  refine ⟨?_, ?_, ?_, by decide, ?_⟩
  · intro cs c hmem hbad
    have hany : cs.any (fun c => c.name = "" || c.line = 0) = true := by
      refine List.any_eq_true.mpr ⟨c, hmem, ?_⟩
      rcases hbad with h | h <;> simp [h]
    simp [validPlClients, hany]
  · intro a1 a2 q cs h
    simp [matchClient, h]
  · intro attempts plClients s r rest hguard hmc
    simp only [plLoopGo, hmc]
    rw [if_neg ?_]
    · intro hor
      exact hguard (by exact_mod_cast hor)
  · intro attempts plClients s rest a q
    constructor
    · simp [plLoopGo]
    · simp [plLoopGo]

/-- Decision used to show the empty candidate set flows through. -/
def emptyCandsAttemptsEx :
    String → Except Unit MatchResult × Except Unit MatchResult :=
  fun _ => (.ok degradedDecision, .ok degradedDecision)

/-- C8 counterexample: an empty candidate set passes validation and
`matchClient` answers normally instead of failing fast; and a source row
lacking its name is skipped without any error, ending a run with
`aborted = false`. -/
theorem spec_c8_counterexample :
    validPlClients [] = true
    ∧ matchClient (.ok degradedDecision) (.ok degradedDecision) "ACME" []
        = .ok degradedDecision
    ∧ startPLLoop emptyCandsAttemptsEx clientsEx [(1, CellValue.num 10)]
        [{ client := "", value := 5 }]
      = { revenues := [(1, CellValue.num 10)], logRows := [],
          updatedCount := 0, aborted := false } := by
  refine ⟨by decide, by with_unfolding_all rfl, by with_unfolding_all rfl⟩

/-- Malformed candidate list (blank name), used by the C8 witness. -/
def badClientsEx : List PLClient := [{ name := "", line := 2 }]

/-- Loop state with one committed write, used by the C8 witness. -/
def committedStateEx : PLLoopState :=
  { revenues := [(3, CellValue.num 7)], logAcc := [], updatedCount := 0,
    aborted := false }

/-- C8 witness: with a malformed candidate record the first processed row
aborts the run, and the committed revenues are preserved. -/
theorem spec_c8_witness :
    plLoopGo emptyCandsAttemptsEx badClientsEx committedStateEx
        [{ client := "ACME", value := 5 }]
      = { committedStateEx with aborted := true } :=
  spec_c8.2.2.1 emptyCandsAttemptsEx badClientsEx committedStateEx
    { client := "ACME", value := 5 } [] (by with_unfolding_all decide)
    (by with_unfolding_all rfl)

/-- C10: in the two-sheet engine an entry is checked against Expenses
first; when that check reports a match the amount is aggregated at the
Expenses reference and the Staffing decision and candidates are never
consulted (the result is the same for every staffing input), the accepted
reference comes from the Expenses candidate list, and — in full
generality — any successful entry processing modifies at most one
aggregate target. -/
theorem spec_c10 (dExp : MatchResult) (expCands : List Candidate)
    (store : List (String × CellValue)) (amount : ℚ) (r1 : MatchOutcome)
    (h1 : checkSheetForMatch dExp expCands = .ok r1) (h2 : r1.isMatch = true) :
    (∀ (dStaff : MatchResult) (staffCands : List Candidate),
        matchAndUpdateEntryTwoSheet dExp dStaff expCands staffCands store amount
          = .ok (r1, updateAmount store (r1.reference.getD "") amount))
    ∧ (∃ c ∈ expCands, r1.reference = some c.reference)
    ∧ (∀ k, k ≠ r1.reference.getD "" →
        getCell (updateAmount store (r1.reference.getD "") amount) k
          = getCell store k)
    ∧ (∀ (dE dS : MatchResult) (cE cS : List Candidate)
        (st0 : List (String × CellValue)) (amt : ℚ) (out : MatchOutcome)
        (st1 : List (String × CellValue)),
        matchAndUpdateEntryTwoSheet dE dS cE cS st0 amt = .ok (out, st1) →
        ∃ ref, ∀ k, k ≠ ref → getCell st1 k = getCell st0 k) := by
  refine ⟨?_, ?_, ?_, ?_⟩
  · intro dStaff staffCands
    simp [matchAndUpdateEntryTwoSheet, h1, h2]
  · unfold checkSheetForMatch at h1
    split at h1
    · split at h1
      · exact absurd h1 (by simp)
      · split at h1
        · exact absurd h1 (by simp)
        · split at h1
          · exact absurd h1 (by simp)
          · rename_i n hn c hget
            simp only [Except.ok.injEq] at h1
            subst h1
            exact ⟨c, List.get?_mem hget, rfl⟩
    · simp only [Except.ok.injEq] at h1
      subst h1
      exact absurd h2 (by simp [noMatchOutcome])
  · intro k hk
    exact getCell_setCell_ne store _ k _ hk
  · intro dE dS cE cS st0 amt out st1 h
    unfold matchAndUpdateEntryTwoSheet at h
    split at h
    · exact absurd h (by simp)
    · rename_i r hre
      split at h
      · simp only [Except.ok.injEq, Prod.mk.injEq] at h
        obtain ⟨-, hst⟩ := h
        subst hst
        exact ⟨r.reference.getD "", fun k hk =>
          getCell_setCell_ne st0 _ k _ hk⟩
      · split at h
        · exact absurd h (by simp)
        · rename_i r2 hr2
          split at h
          · simp only [Except.ok.injEq, Prod.mk.injEq] at h
            obtain ⟨-, hst⟩ := h
            subst hst
            exact ⟨r2.reference.getD "", fun k hk =>
              getCell_setCell_ne st0 _ k _ hk⟩
          · simp only [Except.ok.injEq, Prod.mk.injEq] at h
            obtain ⟨-, hst⟩ := h
            subst hst
            exact ⟨"", fun k _ => rfl⟩

/-- Accepted expenses decision used by the C10 witness. -/
def dExpEx : MatchResult :=
  { matched := some true, lineNumber := some 2, reference := none,
    confidence := some (9/10) }

/-- Expenses candidate list used by the C10 witness. -/
def expCandsEx : List Candidate :=
  [{ name := "Acme SRL", reference := "Expenses!C2" }]

/-- Expenses match outcome used by the C10 witness. -/
def r1Ex : MatchOutcome :=
  { isMatch := true, reference := some "Expenses!C2",
    confidence := some (9/10) }

/-- C10 witness: with an accepted Expenses decision the entry updates the
Expenses target and the staffing inputs are irrelevant. -/
theorem spec_c10_witness :
    matchAndUpdateEntryTwoSheet dExpEx degradedDecision expCandsEx []
        [("Expenses!C2", CellValue.num 10)] 5
      = .ok (r1Ex,
          updateAmount [("Expenses!C2", CellValue.num 10)] "Expenses!C2" 5) :=
  (spec_c10 dExpEx expCandsEx [("Expenses!C2", CellValue.num 10)] 5 r1Ex
    (by with_unfolding_all rfl) rfl).1 degradedDecision []

theorem matchAndUpdateEntryP5_reject
    (oracle : String → List Candidate → MatchResult)
    (expNames staffNames : List String) (st : EngineState)
    (supplier : String) (amount : ℚ)
    (h : acceptMatch (oracle supplier (allCands expNames staffNames)) (1/2)
        = false) :
    matchAndUpdateEntryP5 oracle expNames staffNames st supplier amount
      = .ok (noMatchOutcome, st) := by
  simp only [matchAndUpdateEntryP5, h, Bool.false_eq_true, if_false]

theorem matchAndUpdateEntryP5_ok_cases
    (oracle : String → List Candidate → MatchResult)
    (expNames staffNames : List String) (st : EngineState)
    (supplier : String) (amount : ℚ) (res : MatchOutcome) (st' : EngineState)
    (h : matchAndUpdateEntryP5 oracle expNames staffNames st supplier amount
        = .ok (res, st')) :
    (res.isMatch = true ∧ ∃ ref, res.reference = some ref
        ∧ containsBang ref = true)
    ∨ (res = noMatchOutcome ∧ st' = st
        ∧ acceptMatch (oracle supplier (allCands expNames staffNames)) (1/2)
            = false) := by
  simp only [matchAndUpdateEntryP5] at h
  split at h
  · split at h
    · exact absurd h (by simp)
    · rename_i ref href
      split at h
      · exact absurd h (by simp)
      · rename_i p sheetChars cellChars hbreak
        split at h
        · exact absurd h (by simp)
        · split at h
          · exact absurd h (by simp)
          · split at h
            all_goals
              simp only [Except.ok.injEq, Prod.mk.injEq] at h
              obtain ⟨hres, hst⟩ := h
              left
              refine ⟨by rw [← hres], ref, by rw [← hres], ?_⟩
              exact hasBang_of_breakAtBang ref.data _ hbreak
  · rename_i hacc
    simp only [Except.ok.injEq, Prod.mk.injEq] at h
    obtain ⟨hres, hst⟩ := h
    right
    exact ⟨hres.symm, hst.symm, by simpa using hacc⟩

theorem shouldSkip_of_containsBang (s : String) (h : containsBang s = true) :
    shouldSkip s = true := by
  have h1 : s ≠ "" := by
    intro he; rw [he] at h; exact absurd h (by decide)
  have h2 : s ≠ "No match" := by
    intro he; rw [he] at h; exact absurd h (by decide)
  simp [shouldSkip, h1, h2, h]

theorem processRowP5_skip (oracle : String → List Candidate → MatchResult)
    (expNames staffNames : List String) (st : EngineState) (r : SourceRow)
    (h : shouldSkip r.isMatched = true) :
    processRowP5 oracle expNames staffNames st r = .ok (st, r) := by
  simp [processRowP5, h]

theorem processRowP5_ok_cases
    (oracle : String → List Candidate → MatchResult)
    (expNames staffNames : List String) (st : EngineState) (r : SourceRow)
    (st1 : EngineState) (r' : SourceRow)
    (h : processRowP5 oracle expNames staffNames st r = .ok (st1, r')) :
    (shouldSkip r.isMatched = true ∧ st1 = st ∧ r' = r)
    ∨ (shouldSkip r.isMatched = false ∧
        ∃ res, matchAndUpdateEntryP5 oracle expNames staffNames st
            r.supplier r.amount = .ok (res, st1)
          ∧ r' = { r with isMatched := updateMatchedStatus res }) := by
  unfold processRowP5 at h
  split at h
  · rename_i hskip
    left
    simp only [Except.ok.injEq, Prod.mk.injEq] at h
    exact ⟨hskip, h.1.symm, h.2.symm⟩
  · rename_i hskip
    right
    refine ⟨by simpa using hskip, ?_⟩
    split at h
    · exact absurd h (by simp)
    · rename_i res st1' hm
      simp only [Except.ok.injEq, Prod.mk.injEq] at h
      obtain ⟨h1, h2⟩ := h
      subst h1
      exact ⟨res, hm, h2.symm⟩

theorem processRowsP5_idem (oracle : String → List Candidate → MatchResult)
    (expNames staffNames : List String) :
    ∀ (rows : List SourceRow) (st stF : EngineState) (rowsF : List SourceRow),
      processRowsP5 oracle expNames staffNames st rows = .ok (stF, rowsF) →
      processRowsP5 oracle expNames staffNames stF rowsF = .ok (stF, rowsF) := by
  intro rows
  induction rows with
  | nil =>
    intro st stF rowsF h
    simp only [processRowsP5, Except.ok.injEq, Prod.mk.injEq] at h
    obtain ⟨h1, h2⟩ := h
    subst h1
    subst h2
    rfl
  | cons r rest ih =>
    intro st stF rowsF h
    simp only [processRowsP5] at h
    cases hr : processRowP5 oracle expNames staffNames st r with
    | error e0 => rw [hr] at h; exact absurd h (by simp)
    | ok p =>
      obtain ⟨st1, r'⟩ := p
      rw [hr] at h
      simp only at h
      cases hrest : processRowsP5 oracle expNames staffNames st1 rest with
      | error e0 => rw [hrest] at h; exact absurd h (by simp)
      | ok q =>
        obtain ⟨st2, rest'⟩ := q
        rw [hrest] at h
        simp only [Except.ok.injEq, Prod.mk.injEq] at h
        obtain ⟨h1, h2⟩ := h
        subst h1
        subst h2
        have hrest2 := ih st1 st2 rest' hrest
        rcases processRowP5_ok_cases oracle expNames staffNames st r st1 r' hr
          with ⟨hskip, hst1, hr'⟩ | ⟨hskip, res, hm, hr'⟩
        · subst hst1
          subst hr'
          simp only [processRowsP5,
            processRowP5_skip oracle expNames staffNames st2 _ hskip,
            hrest2]
        · rcases matchAndUpdateEntryP5_ok_cases oracle expNames staffNames st
            r.supplier r.amount res st1 hm
            with ⟨hisM, ref, href, hbang⟩ | ⟨hres, hstEq, hacc⟩
          · have hstat : r'.isMatched = ref := by
              rw [hr']
              simp [updateMatchedStatus, hisM, href]
            have hskip2 : shouldSkip r'.isMatched = true := by
              rw [hstat]
              exact shouldSkip_of_containsBang ref hbang
            simp only [processRowsP5,
              processRowP5_skip oracle expNames staffNames st2 r' hskip2,
              hrest2]
          · subst hres
            subst hstEq
            have hstat : r'.isMatched = "No match" := by
              rw [hr']
              rfl
            have hskip2 : shouldSkip r'.isMatched = false := by
              rw [hstat]
              decide
            have hrej2 : matchAndUpdateEntryP5 oracle expNames staffNames st2
                r'.supplier r'.amount = .ok (noMatchOutcome, st2) := by
              have hsup : r'.supplier = r.supplier := by rw [hr']
              have hamt : r'.amount = r.amount := by rw [hr']
              rw [hsup, hamt]
              exact matchAndUpdateEntryP5_reject oracle expNames staffNames
                st2 r.supplier r.amount hacc
            have hrow2 : processRowP5 oracle expNames staffNames st2 r'
                = .ok (st2, r') := by
              unfold processRowP5
              rw [hskip2]
              simp only [Bool.false_eq_true, if_false, hrej2]
              have hupd : updateMatchedStatus noMatchOutcome = "No match" := rfl
              rw [hupd, ← hstat]
            simp only [processRowsP5, hrow2, hrest2]

/-- C4: an entry whose column P holds a stored match reference (it
contains `'!'`) is skipped — same state, same row, and the same result for
every oracle, i.e. the oracle is not consulted; an entry marked
`'No match'` is not skipped (it is retried); and a second run over the
rows and state left by a completed run, with the same oracle, is a no-op:
zero additional aggregation and unchanged statuses. -/
theorem spec_c4 (oracle : String → List Candidate → MatchResult)
    (expNames staffNames : List String) (st stF : EngineState)
    (rows rowsF : List SourceRow)
    (hrun : processRowsP5 oracle expNames staffNames st rows
        = .ok (stF, rowsF)) :
    (∀ (r : SourceRow), containsBang r.isMatched = true →
        ∀ (oracle2 : String → List Candidate → MatchResult)
          (st0 : EngineState),
          processRowP5 oracle2 expNames staffNames st0 r = .ok (st0, r))
    ∧ shouldSkip "No match" = false
    ∧ processRowsP5 oracle expNames staffNames stF rowsF
        = .ok (stF, rowsF) := by
  refine ⟨?_, by decide, processRowsP5_idem oracle expNames staffNames rows
    st stF rowsF hrun⟩
  intro r hbang oracle2 st0
  exact processRowP5_skip oracle2 expNames staffNames st0 r
    (shouldSkip_of_containsBang r.isMatched hbang)

/-- Deterministic oracle used by the C4 witness: it accepts `ACME S.R.L.`
at `Expenses!C4` with confidence 0.9 and rejects everything else. -/
def oracleEx4 : String → List Candidate → MatchResult := fun sup _ =>
  if sup = "ACME S.R.L." then
    { matched := some true, lineNumber := none,
      reference := some "Expenses!C4", confidence := some (9/10) }
  else
    { matched := some false, lineNumber := none, reference := none,
      confidence := some 0 }

/-- Aggregate state before the C4 witness run. -/
def stEx4 : EngineState :=
  { expensesAgg := [(4, CellValue.num 10)], staffingAgg := [] }

/-- Source rows before the C4 witness run. -/
def rowsEx4 : List SourceRow :=
  [{ supplier := "ACME S.R.L.", amount := 5, isMatched := "" },
   { supplier := "Foo", amount := 7, isMatched := "" }]

/-- Aggregate state after the C4 witness run: 5 aggregated into row 4. -/
def stEx4F : EngineState :=
  { expensesAgg := [(4, CellValue.num 15)], staffingAgg := [] }

/-- Source rows after the C4 witness run: a stored reference and a
`No match`. -/
def rowsEx4F : List SourceRow :=
  [{ supplier := "ACME S.R.L.", amount := 5, isMatched := "Expenses!C4" },
   { supplier := "Foo", amount := 7, isMatched := "No match" }]

/-- C4 witness: rerunning the engine on the state a completed run left
behind changes nothing. -/
theorem spec_c4_witness :
    processRowsP5 oracleEx4 ["Acme SRL", "", "Globex SA"] ["Dev One"]
        stEx4F rowsEx4F = .ok (stEx4F, rowsEx4F) :=
  (spec_c4 oracleEx4 ["Acme SRL", "", "Globex SA"] ["Dev One"] stEx4 stEx4F
    rowsEx4 rowsEx4F (by with_unfolding_all rfl)).2.2
